import Mathlib

/-!
Shallow embedding of src/ac_dc/oscar_sample_filter.py.

Python strings are modelled as lists of characters. Python float arithmetic
on ratios is modelled exactly over the rationals. The external fasttext
classifier and the external KenLM language model are opaque scorers in the
source and are modelled as structures holding an arbitrary scoring function.
The float exponential 10.0 ** x used by the perplexity score is modelled by
an abstract function pow10 passed as a parameter, since the exact rounded
float exponential has no closed arithmetic form.

Python string operations used by the source and their models here:
 - str.lower            -> List.map Char.toLower
 - str.strip()          -> pyStrip (drop whitespace at both ends)
 - str.strip(chars)     -> pyStripChars (drop listed characters at both ends)
 - str.split(" ")       -> List.splitOn a single space char (keeps empty pieces,
                           and the split of an empty string is one empty piece,
                           matching Python)
 - str.split()          -> pySplitWs (split on whitespace, drop empty pieces)
 - " ".join(ws)         -> List.intercalate with a single space char
 - sub in word          -> containsSub (contiguous substring test)
 - str.replace(a, b)    -> pyReplace (leftmost nonoverlapping replacement)
-/

/-- Model of Python str.strip with no argument: remove whitespace characters
from both ends of the string. -/
def pyStrip (s : List Char) : List Char :=
  ((s.dropWhile Char.isWhitespace).reverse.dropWhile Char.isWhitespace).reverse

/-- Model of Python str.strip(chars): remove the listed characters from both
ends of the string. -/
def pyStripChars (chars : List Char) (w : List Char) : List Char :=
  ((w.dropWhile (fun c => c ∈ chars)).reverse.dropWhile (fun c => c ∈ chars)).reverse

/-- Model of Python str.split with no argument: split on runs of whitespace,
dropping empty pieces; the split of an empty or all-whitespace string is the
empty list, matching Python. -/
def pySplitWs (s : List Char) : List (List Char) :=
  (s.splitOnP Char.isWhitespace).filter (fun w => !w.isEmpty)

/-- Model of the Python substring test sub in word.  An empty pattern is
contained in every string, as in Python. -/
def containsSub (pat : List Char) : List Char → Bool
  | [] => pat.isEmpty
  | c :: cs => pat.isPrefixOf (c :: cs) || containsSub pat cs

/-- Model of Python str.replace(pat, repl): replace every leftmost
nonoverlapping occurrence of pat.  The source only calls it with nonempty
patterns; for an empty pattern this model returns the string unchanged. -/
def pyReplace (s pat repl : List Char) : List Char :=
  match s with
  | [] => []
  | c :: cs =>
    if h : pat ≠ [] ∧ pat.isPrefixOf (c :: cs) then
      repl ++ pyReplace ((c :: cs).drop pat.length) pat repl
    else
      c :: pyReplace cs pat repl
termination_by s.length
decreasing_by
  · have hp : 0 < pat.length := List.length_pos.mpr h.1
    simp only [List.length_drop, List.length_cons]
    omega
  · simp only [List.length_cons]
    omega

namespace ModifyingSentences

/-- Translation of ModifyingSentences.lower_strip_sentence. -/
def lower_strip_sentence (sentence : List Char) : List Char :=
  pyStrip (sentence.map Char.toLower)

/-- Translation of ModifyingSentences.get_words_from_sentence: lower and strip
the sentence, split it on single spaces, and strip each word of the given
characters. -/
def get_words_from_sentence (sentence strip_characters : List Char) :
    List (List Char) :=
  ((lower_strip_sentence sentence).splitOn ' ').map (pyStripChars strip_characters)

/-- Translation of ModifyingSentences.remove_words_with_incorrect_substrings:
split on single spaces, keep the words containing none of the given
substrings, rejoin with single spaces. -/
def remove_words_with_incorrect_substrings (sentence : List Char)
    (incorrect_word_substrings : List (List Char)) : List Char :=
  [' '].intercalate
    ((sentence.splitOn ' ').filter
      (fun word => incorrect_word_substrings.all (fun sub => !containsSub sub word)))

/-- Translation of ModifyingSentences.remove_long_words: split on single
spaces, keep the words of length strictly below the cutoff, rejoin with
single spaces. -/
def remove_long_words (sentence : List Char) (length_word_cutoff : ℕ) :
    List Char :=
  [' '].intercalate
    ((sentence.splitOn ' ').filter (fun word => decide (word.length < length_word_cutoff)))

/-- Translation of ModifyingSentences.modifying_sentences: optionally remove
the words with forbidden substrings, then optionally remove the long words. -/
def modifying_sentences (sentence : List Char)
    (cond_remove_words_with_incorrect_substrings : Bool)
    (incorrect_word_substrings : List (List Char))
    (cond_remove_long_words : Bool) (length_word_cutoff : ℕ) : List Char :=
  let sentence1 :=
    if cond_remove_words_with_incorrect_substrings then
      remove_words_with_incorrect_substrings sentence incorrect_word_substrings
    else sentence
  if cond_remove_long_words then remove_long_words sentence1 length_word_cutoff
  else sentence1

end ModifyingSentences

/-- Opaque handle to the external fasttext language identification model:
predict returns the top predicted label together with its confidence score.
The source treats the model as an opaque scorer. -/
structure LangIdModel where
  predict : List Char → (List Char × ℚ)

/-- Opaque handle to the external KenLM language model: score returns the log
probability score of a line.  The source treats the model as an opaque
scorer. -/
structure KenlmModel where
  score : List Char → ℚ

/-- The fasttext label tag stripped by check_lang_id. -/
def labelTag : List Char := ['_', '_', 'l', 'a', 'b', 'e', 'l', '_', '_']

namespace Filtering

/-- Translation of Filtering.check_empty: the normalized text is nonempty and
the word list is nonempty. -/
def check_empty (sentence strip_characters : List Char) : Bool :=
  let sent := ModifyingSentences.lower_strip_sentence sentence
  let words := ModifyingSentences.get_words_from_sentence sentence strip_characters
  decide (sent.length > 0) && decide (words.length > 0)

/-- Translation of Filtering.check_special_characters: the ratio of special
characters in the normalized text is strictly below the cutoff.  The Python
float division is modelled exactly over the rationals. -/
def check_special_characters (sentence special_characters : List Char)
    (special_characters_cutoff : ℚ) : Bool :=
  let sent := ModifyingSentences.lower_strip_sentence sentence
  let special_characters_ratio : ℚ :=
    ((sent.filter (fun c => decide (c ∈ special_characters))).length : ℚ) /
      (sent.length : ℚ)
  decide (special_characters_ratio < special_characters_cutoff)

/-- Translation of Filtering.check_stopwords.  The stopword lexicon is an
optional set of words; the Python truthiness test if stopwords is false both
for None and for an empty set, and in both cases the check passes without
computing any ratio. -/
def check_stopwords (sentence strip_characters : List Char)
    (stopwords : Option (List (List Char)))
    (stopwords_min_cutoff stopwords_max_cutoff : ℚ) : Bool :=
  match stopwords with
  | none => true
  | some sw =>
    if sw.isEmpty then true
    else
      let words := ModifyingSentences.get_words_from_sentence sentence strip_characters
      let stopwords_ratio : ℚ :=
        ((words.filter (fun word => decide (word ∈ sw))).length : ℚ) /
          (words.length : ℚ)
      decide (stopwords_ratio > stopwords_min_cutoff) &&
        decide (stopwords_ratio < stopwords_max_cutoff)

/-- Translation of Filtering.check_badwords.  As for the stopwords, the
Python truthiness test if badwords is false both for None and for an empty
set. -/
def check_badwords (sentence strip_characters : List Char)
    (badwords : Option (List (List Char))) (badwords_cutoff : ℚ) : Bool :=
  match badwords with
  | none => true
  | some bw =>
    if bw.isEmpty then true
    else
      let words := ModifyingSentences.get_words_from_sentence sentence strip_characters
      let badwords_ratio : ℚ :=
        ((words.filter (fun word => decide (word ∈ bw))).length : ℚ) /
          (words.length : ℚ)
      decide (badwords_ratio < badwords_cutoff)

/-- Translation of Filtering.check_lang_id.  The langsId argument models the
static langs_id table lookup mapping a fasttext label to an oscar language
code.  When no model is bound, the check passes. -/
def check_lang_id (langsId : List Char → List Char)
    (sentence strip_characters lang_oscar_id : List Char)
    (model_lang_id : Option LangIdModel) (lang_id_cutoff : ℚ) : Bool :=
  match model_lang_id with
  | none => true
  | some m =>
    let words := ModifyingSentences.get_words_from_sentence sentence strip_characters
    let sent := pyReplace ([' '].intercalate words) ['\n'] [' ']
    let pred := m.predict sent
    let lang_pred_fasttext_id := pyReplace pred.1 labelTag []
    let score_pred := pred.2
    let lang_pred_oscar_id := langsId lang_pred_fasttext_id
    decide (lang_pred_oscar_id = lang_oscar_id) && decide (score_pred > lang_id_cutoff)

/-- Translation of Filtering.get_perplexity_score: split the document on
newlines, accumulate the log score of every line and the whitespace token
count of every line plus one, and apply the exponential to minus the total
log score over the total token count.  The pow10 argument models the float
exponential 10.0 ** x of the source. -/
def get_perplexity_score (pow10 : ℚ → ℚ) (sentence : List Char)
    (kenlm_model : KenlmModel) : ℚ :=
  let r := (sentence.splitOn '\n').foldl
    (fun (acc : ℚ × ℕ) line =>
      (acc.1 + kenlm_model.score line, acc.2 + ((pySplitWs line).length + 1)))
    ((0 : ℚ), (0 : ℕ))
  pow10 (-r.1 / (r.2 : ℚ))

/-- Translation of Filtering.check_perplexity: when a model is bound, the
perplexity score is strictly below the cutoff. -/
def check_perplexity (pow10 : ℚ → ℚ) (sentence : List Char)
    (kenlm_model : Option KenlmModel) (perplexity_cutoff : ℚ) : Bool :=
  match kenlm_model with
  | none => true
  | some m => decide (get_perplexity_score pow10 sentence m < perplexity_cutoff)

/-- Translation of Filtering.filtering: run the enabled checks in source
order, returning false at the first enabled check that fails. -/
def filtering (pow10 : ℚ → ℚ) (langsId : List Char → List Char)
    (sentence : List Char)
    (cond_check_empty : Bool) (strip_characters : List Char)
    (cond_check_special_characters : Bool) (special_characters : List Char)
    (special_characters_cutoff : ℚ)
    (cond_check_stopwords : Bool) (stopwords : Option (List (List Char)))
    (stopwords_min_cutoff stopwords_max_cutoff : ℚ)
    (cond_check_badwords : Bool) (badwords : Option (List (List Char)))
    (badwords_cutoff : ℚ)
    (cond_check_lang_id : Bool) (lang_oscar_id : List Char)
    (model_lang_id : Option LangIdModel) (lang_id_cutoff : ℚ)
    (cond_check_perplexity : Bool) (kenlm_model : Option KenlmModel)
    (perplexity_cutoff : ℚ) : Bool :=
  if cond_check_empty && !check_empty sentence strip_characters then false
  else if cond_check_special_characters &&
      !check_special_characters sentence special_characters
        special_characters_cutoff then false
  else if cond_check_stopwords &&
      !check_stopwords sentence strip_characters stopwords
        stopwords_min_cutoff stopwords_max_cutoff then false
  else if cond_check_badwords &&
      !check_badwords sentence strip_characters badwords badwords_cutoff then false
  else if cond_check_lang_id &&
      !check_lang_id langsId sentence strip_characters lang_oscar_id
        model_lang_id lang_id_cutoff then false
  else if cond_check_perplexity &&
      !check_perplexity pow10 sentence kenlm_model perplexity_cutoff then false
  else true

end Filtering

/-- The word filter common to both rewrite passes of the transformer: split
on single spaces, keep the words accepted by q, rejoin with single spaces. -/
def filterWords (q : List Char → Bool) (s : List Char) : List Char :=
  [' '].intercalate ((s.splitOn ' ').filter q)

/-- Model of an input record for the dataset map: a text field and a metadata
field standing for every other field of the record. -/
structure DocRecord (α : Type) where
  text : List Char
  meta : α

/-- The transformer parameters read from the per language parameter table. -/
structure ModifyingParams where
  cond_remove_words_with_incorrect_substrings : Bool
  incorrect_word_substrings : List (List Char)
  cond_remove_long_words : Bool
  length_word_cutoff : ℕ

namespace OscarModifyingSentences

/-- Translation of OscarModifyingSentences.__call__: rewrite the text field
with modifying_sentences and return the record. -/
def call {α : Type} (param : ModifyingParams) (ex : DocRecord α) : DocRecord α :=
  { ex with
    text := ModifyingSentences.modifying_sentences ex.text
      param.cond_remove_words_with_incorrect_substrings
      param.incorrect_word_substrings
      param.cond_remove_long_words
      param.length_word_cutoff }

end OscarModifyingSentences

example :
    ModifyingSentences.remove_words_with_incorrect_substrings
      ['a', 'b', ' ', 'c', 'x', ' ', 'd'] [['x']] = ['a', 'b', ' ', 'd'] := by
  decide

example :
    ModifyingSentences.remove_long_words ['a', 'b', ' ', 'c', ' ', 'd', 'e'] 2 =
      ['c'] := by
  decide

example : ModifyingSentences.lower_strip_sentence [' ', 'A', 'b', ' '] = ['a', 'b'] := by
  decide

example :
    ModifyingSentences.get_words_from_sentence ['A', '!', ' ', 'b'] ['!'] =
      [['a'], ['b']] := by
  decide

/-! Lemmas about splitting on a single space and rejoining, used to prove
the transformer idempotent. -/

/-- Every character of every piece produced by splitOnP falsifies the
splitting predicate. -/
theorem mem_splitOnP_pred_false {α : Type} (p : α → Bool) :
    ∀ (xs : List α), ∀ w ∈ xs.splitOnP p, ∀ c ∈ w, p c = false := by
  intro xs
  induction xs with
  | nil =>
    intro w hw c hc
    simp only [List.splitOnP_nil, List.mem_singleton] at hw
    subst hw
    simp at hc
  | cons a xs ih =>
    intro w hw c hc
    rw [List.splitOnP_cons] at hw
    by_cases hpa : p a = true
    · rw [if_pos hpa] at hw
      rcases List.mem_cons.mp hw with h | h
      · subst h
        simp at hc
      · exact ih w h c hc
    · rw [if_neg hpa] at hw
      obtain ⟨w0, ws, hsp⟩ : ∃ w0 ws, xs.splitOnP p = w0 :: ws := by
        cases hsp : xs.splitOnP p with
        | nil => exact absurd hsp (List.splitOnP_ne_nil p xs)
        | cons w0 ws => exact ⟨w0, ws, rfl⟩
      rw [hsp, List.modifyHead_cons] at hw
      rcases List.mem_cons.mp hw with h | h
      · subst h
        rcases List.mem_cons.mp hc with h0 | h0
        · subst h0
          exact Bool.not_eq_true _ ▸ hpa
        · exact ih w0 (hsp ▸ List.mem_cons_self _ _) c h0
      · exact ih w (hsp ▸ List.mem_cons_of_mem _ h) c hc

/-- The separator does not occur in any piece produced by splitOn. -/
theorem not_mem_of_mem_splitOn {α : Type} [DecidableEq α] (x : α) (xs : List α) :
    ∀ w ∈ xs.splitOn x, x ∉ w := by
  intro w hw hx
  have h := mem_splitOnP_pred_false (fun c => c == x) xs w hw x hx
  simp at h


theorem filterWords_def (q : List Char → Bool) (s : List Char) :
    filterWords q s = [' '].intercalate ((s.splitOn ' ').filter q) := rfl

theorem remove_words_eq_filterWords (s : List Char) (subs : List (List Char)) :
    ModifyingSentences.remove_words_with_incorrect_substrings s subs =
      filterWords (fun word => subs.all (fun sub => !containsSub sub word)) s := rfl

theorem remove_long_eq_filterWords (s : List Char) (cut : ℕ) :
    ModifyingSentences.remove_long_words s cut =
      filterWords (fun word => decide (word.length < cut)) s := rfl

/-- Applying a word filter to a rejoined list of space-free words filters the
list itself. -/
theorem filterWords_intercalate (q : List Char → Bool) (ws : List (List Char))
    (hws : ∀ w ∈ ws, ' ' ∉ w) :
    filterWords q ([' '].intercalate ws) = [' '].intercalate (ws.filter q) := by
  cases ws with
  | nil =>
    by_cases hq : q [] = true <;>
      simp [filterWords, List.splitOn, List.intercalate, hq]
  | cons w ws =>
    rw [filterWords_def, List.splitOn_intercalate (w :: ws) ' ' hws (List.cons_ne_nil w ws)]

/-- A word filter leaves a rejoined list of space-free words unchanged when
every word is accepted. -/
theorem filterWords_stable (q : List Char → Bool) (l : List (List Char))
    (hl : ∀ w ∈ l, ' ' ∉ w) (hq : ∀ w ∈ l, q w = true) :
    filterWords q ([' '].intercalate l) = [' '].intercalate l := by
  rw [filterWords_intercalate q l hl, List.filter_eq_self.mpr hq]

/-- A word filter is idempotent. -/
theorem filterWords_idem (q : List Char → Bool) (s : List Char) :
    filterWords q (filterWords q s) = filterWords q s := by
  rw [filterWords_def q s]
  exact filterWords_stable q _
    (fun w hw => not_mem_of_mem_splitOn ' ' s w (List.mem_of_mem_filter hw))
    (fun w hw => (List.mem_filter.mp hw).2)

/-- Two composed word filters reduce to two list filters over one split. -/
theorem filterWords_filterWords (q r : List Char → Bool) (s : List Char) :
    filterWords q (filterWords r s) =
      [' '].intercalate (((s.splitOn ' ').filter r).filter q) := by
  rw [filterWords_def r s]
  exact filterWords_intercalate q _
    (fun w hw => not_mem_of_mem_splitOn ' ' s w (List.mem_of_mem_filter hw))

/-- C7: ModifyingSentences.modifying_sentences is idempotent: for every
sentence and every fixed configuration of the two toggles, the forbidden
substring set and the length cutoff, applying the transformation twice yields
the same string as applying it once. -/
theorem claim_C7_modifying_sentences_idempotent (s : List Char) (c1 : Bool)
    (subs : List (List Char)) (c2 : Bool) (cut : ℕ) :
    ModifyingSentences.modifying_sentences
        (ModifyingSentences.modifying_sentences s c1 subs c2 cut) c1 subs c2 cut =
      ModifyingSentences.modifying_sentences s c1 subs c2 cut := by
  cases c1 <;> cases c2 <;>
    simp only [ModifyingSentences.modifying_sentences, if_true, if_false,
      Bool.false_eq_true, Bool.true_eq_false, ite_true, ite_false] <;>
    simp only [remove_words_eq_filterWords, remove_long_eq_filterWords]
  · exact filterWords_idem _ s
  · exact filterWords_idem _ s
  · have hms := filterWords_filterWords (fun word => decide (word.length < cut))
      (fun word => subs.all (fun sub => !containsSub sub word)) s
    rw [hms]
    have hl : ∀ w ∈ ((s.splitOn ' ').filter
        (fun word => subs.all (fun sub => !containsSub sub word))).filter
          (fun word => decide (word.length < cut)), ' ' ∉ w :=
      fun w hw => not_mem_of_mem_splitOn ' ' s w
        (List.mem_of_mem_filter (List.mem_of_mem_filter hw))
    rw [filterWords_stable _ _ hl
      (fun w hw => (List.mem_filter.mp (List.mem_of_mem_filter hw)).2)]
    exact filterWords_stable _ _ hl (fun w hw => (List.mem_filter.mp hw).2)

/-- C1: for every sentence and every configuration of the six toggles,
Filtering.filtering equals the conjunction over the enabled checks, each
disabled check contributing true.  This characterizes the function
completely: the result is false exactly when some enabled check fails, it
does not depend on the value of any check situated after the first enabled
failing one, and it is true when every enabled check passes or all checks
are disabled. -/
theorem claim_C1_filtering_is_ordered_conjunction
    (pow10 : ℚ → ℚ) (langsId : List Char → List Char) (sentence : List Char)
    (c1 : Bool) (strip_characters : List Char)
    (c2 : Bool) (special_characters : List Char) (scc : ℚ)
    (c3 : Bool) (sw : Option (List (List Char))) (smin smax : ℚ)
    (c4 : Bool) (bw : Option (List (List Char))) (bwc : ℚ)
    (c5 : Bool) (lang : List Char) (mli : Option LangIdModel) (lic : ℚ)
    (c6 : Bool) (km : Option KenlmModel) (pc : ℚ) :
    Filtering.filtering pow10 langsId sentence c1 strip_characters c2
        special_characters scc c3 sw smin smax c4 bw bwc c5 lang mli lic
        c6 km pc =
      ((!c1 || Filtering.check_empty sentence strip_characters) &&
        ((!c2 || Filtering.check_special_characters sentence special_characters scc) &&
          ((!c3 || Filtering.check_stopwords sentence strip_characters sw smin smax) &&
            ((!c4 || Filtering.check_badwords sentence strip_characters bw bwc) &&
              ((!c5 || Filtering.check_lang_id langsId sentence strip_characters
                  lang mli lic) &&
                (!c6 || Filtering.check_perplexity pow10 sentence km pc)))))) := by
  simp only [Filtering.filtering]
  generalize Filtering.check_empty sentence strip_characters = b1
  generalize Filtering.check_special_characters sentence special_characters scc = b2
  generalize Filtering.check_stopwords sentence strip_characters sw smin smax = b3
  generalize Filtering.check_badwords sentence strip_characters bw bwc = b4
  generalize Filtering.check_lang_id langsId sentence strip_characters lang mli lic = b5
  generalize Filtering.check_perplexity pow10 sentence km pc = b6
  revert c1 c2 c3 c4 c5 c6 b1 b2 b3 b4 b5 b6
  decide

/-- C2: when the empty check is enabled, a sentence whose normalized text is
empty is rejected, and the result is false for every value of every later
parameter, so in particular no special character ratio is ever formed over a
zero length normalized text. -/
theorem claim_C2_empty_rejected_before_ratios
    (pow10 : ℚ → ℚ) (langsId : List Char → List Char)
    (sentence strip_characters : List Char)
    (c2 : Bool) (special_characters : List Char) (scc : ℚ)
    (c3 : Bool) (sw : Option (List (List Char))) (smin smax : ℚ)
    (c4 : Bool) (bw : Option (List (List Char))) (bwc : ℚ)
    (c5 : Bool) (lang : List Char) (mli : Option LangIdModel) (lic : ℚ)
    (c6 : Bool) (km : Option KenlmModel) (pc : ℚ)
    (hs : ModifyingSentences.lower_strip_sentence sentence = []) :
    Filtering.filtering pow10 langsId sentence true strip_characters c2
        special_characters scc c3 sw smin smax c4 bw bwc c5 lang mli lic
        c6 km pc = false := by
  simp [Filtering.filtering, Filtering.check_empty, hs]

/-- Closed instance of the C2 theorem at a concrete all-whitespace input. -/
theorem claim_C2_witness :
    ModifyingSentences.lower_strip_sentence [' '] = [] ∧
    Filtering.filtering (fun q => q) (fun l => l) [' '] true [] true ['!'] 1
        true (some [['a']]) 0 1 true (some [['b']]) 1 true ['e', 'n'] none 0
        true none 10 = false :=
  ⟨by decide,
    claim_C2_empty_rejected_before_ratios (fun q => q) (fun l => l) [' '] []
      true ['!'] 1 true (some [['a']]) 0 1 true (some [['b']]) 1 true
      ['e', 'n'] none 0 true none 10 (by decide)⟩

/-- Accumulating a pair of sums with foldl equals the pair of the summed
mapped lists. -/
theorem foldl_pair_sum (f : List Char → ℚ) (g : List Char → ℕ) :
    ∀ (ls : List (List Char)) (a : ℚ) (b : ℕ),
      ls.foldl (fun (acc : ℚ × ℕ) l => (acc.1 + f l, acc.2 + g l)) (a, b) =
        (a + (ls.map f).sum, b + (ls.map g).sum) := by
  intro ls
  induction ls with
  | nil =>
    intro a b
    simp
  | cons l ls ih =>
    intro a b
    simp only [List.foldl_cons, List.map_cons, List.sum_cons]
    rw [ih]
    simp only [Prod.mk.injEq]
    exact ⟨by ring, by omega⟩

/-- C3: Filtering.get_perplexity_score splits the document on newlines and
returns the exponential of minus the sum of the line log scores divided by
the sum over lines of the whitespace token count plus one, and
Filtering.check_perplexity passes exactly when this metric is strictly below
the cutoff. -/
theorem claim_C3_perplexity_aggregation (pow10 : ℚ → ℚ) (m : KenlmModel)
    (sentence : List Char) (cutoff : ℚ) :
    Filtering.get_perplexity_score pow10 sentence m =
      pow10 (-((sentence.splitOn '\n').map m.score).sum /
        ((((sentence.splitOn '\n').map
          (fun line => (pySplitWs line).length + 1)).sum : ℕ) : ℚ)) ∧
    (Filtering.check_perplexity pow10 sentence (some m) cutoff = true ↔
      Filtering.get_perplexity_score pow10 sentence m < cutoff) := by
  constructor
  · simp only [Filtering.get_perplexity_score]
    rw [foldl_pair_sum]
    simp
  · simp [Filtering.check_perplexity]

/-- C8: when no language identification model is bound, check_lang_id returns
true on every input, and filtering gives the same verdict as with the
language id check disabled, so it never returns false on account of that
check. -/
theorem claim_C8_lang_id_skip
    (pow10 : ℚ → ℚ) (langsId : List Char → List Char) (sentence : List Char)
    (c1 : Bool) (strip_characters : List Char)
    (c2 : Bool) (special_characters : List Char) (scc : ℚ)
    (c3 : Bool) (sw : Option (List (List Char))) (smin smax : ℚ)
    (c4 : Bool) (bw : Option (List (List Char))) (bwc : ℚ)
    (c5 : Bool) (lang : List Char) (lic : ℚ)
    (c6 : Bool) (km : Option KenlmModel) (pc : ℚ) :
    Filtering.check_lang_id langsId sentence strip_characters lang none lic = true ∧
    Filtering.filtering pow10 langsId sentence c1 strip_characters c2
        special_characters scc c3 sw smin smax c4 bw bwc c5 lang none lic
        c6 km pc =
      Filtering.filtering pow10 langsId sentence c1 strip_characters c2
        special_characters scc c3 sw smin smax c4 bw bwc false lang none lic
        c6 km pc := by
  refine ⟨rfl, ?_⟩
  simp [Filtering.filtering, Filtering.check_lang_id]

/-- C9: splitting any string on single spaces yields at least one possibly
empty token, so the word list of get_words_from_sentence is never empty, the
token count conjunct of check_empty is always true and check_empty passes
exactly when the normalized text is nonempty, and the stopword and badword
ratio denominator is never zero. -/
theorem claim_C9_words_never_empty (sentence strip_characters : List Char) :
    0 < (ModifyingSentences.get_words_from_sentence sentence strip_characters).length ∧
    (Filtering.check_empty sentence strip_characters = true ↔
      ModifyingSentences.lower_strip_sentence sentence ≠ []) ∧
    ((ModifyingSentences.get_words_from_sentence sentence
        strip_characters).length : ℚ) ≠ 0 := by
  have hw : 0 < (ModifyingSentences.get_words_from_sentence sentence
      strip_characters).length := by
    simp only [ModifyingSentences.get_words_from_sentence, List.length_map,
      List.splitOn]
    exact List.length_pos.mpr (List.splitOnP_ne_nil _ _)
  refine ⟨hw, ?_, ?_⟩
  · simp only [Filtering.check_empty, Bool.and_eq_true, decide_eq_true_iff,
      gt_iff_lt]
    constructor
    · intro h
      exact List.length_pos.mp h.1
    · intro h
      exact ⟨List.length_pos.mpr h, hw⟩
  · exact_mod_cast Nat.pos_iff_ne_zero.mp hw

/-- C10: OscarModifyingSentences.__call__ rewrites only the text field of the
record; the metadata carrying every other field is unchanged. -/
theorem claim_C10_call_rewrites_only_text {α : Type} (param : ModifyingParams)
    (ex : DocRecord α) :
    (OscarModifyingSentences.call param ex).meta = ex.meta ∧
    (OscarModifyingSentences.call param ex).text =
      ModifyingSentences.modifying_sentences ex.text
        param.cond_remove_words_with_incorrect_substrings
        param.incorrect_word_substrings
        param.cond_remove_long_words
        param.length_word_cutoff :=
  ⟨rfl, rfl⟩

/-- C4: for a sentence whose normalized text has length L greater than zero
and exactly k characters in the configured special character set,
check_special_characters passes exactly when k over L is strictly below the
cutoff, and a ratio equal to the cutoff fails the check. -/
theorem claim_C4_special_characters_strict
    (sentence special_characters : List Char) (cutoff : ℚ) (L k : ℕ)
    (hL : (ModifyingSentences.lower_strip_sentence sentence).length = L)
    (hk : ((ModifyingSentences.lower_strip_sentence sentence).filter
      (fun c => decide (c ∈ special_characters))).length = k)
    (hL0 : 0 < L) :
    (Filtering.check_special_characters sentence special_characters cutoff = true ↔
      (k : ℚ) / (L : ℚ) < cutoff) ∧
    ((k : ℚ) / (L : ℚ) = cutoff →
      Filtering.check_special_characters sentence special_characters cutoff = false) := by
  subst hL
  subst hk
  constructor
  · simp [Filtering.check_special_characters]
  · intro he
    simp only [Filtering.check_special_characters]
    rw [he]
    simp

/-- Closed instance of the C4 theorem at a one character input. -/
theorem claim_C4_witness :
    0 < 1 ∧
    ((Filtering.check_special_characters ['!'] ['!'] 2 = true ↔
        ((1 : ℕ) : ℚ) / ((1 : ℕ) : ℚ) < 2) ∧
      (((1 : ℕ) : ℚ) / ((1 : ℕ) : ℚ) = 2 →
        Filtering.check_special_characters ['!'] ['!'] 2 = false)) :=
  ⟨by decide,
    claim_C4_special_characters_strict ['!'] ['!'] 2 1 1 (by decide) (by decide)
      (by decide)⟩

/-- C5: with a nonempty stopword lexicon, check_stopwords passes exactly when
the ratio of lexicon tokens over the token count lies strictly between the
two cutoffs, and a ratio equal to either cutoff fails the check. -/
theorem claim_C5_stopwords_strict (sentence strip_characters : List Char)
    (sw : List (List Char)) (smin smax : ℚ) (hsw : sw ≠ []) :
    (Filtering.check_stopwords sentence strip_characters (some sw) smin smax = true ↔
      (smin < (((ModifyingSentences.get_words_from_sentence sentence
            strip_characters).filter (fun word => decide (word ∈ sw))).length : ℚ) /
          ((ModifyingSentences.get_words_from_sentence sentence
            strip_characters).length : ℚ) ∧
        (((ModifyingSentences.get_words_from_sentence sentence
            strip_characters).filter (fun word => decide (word ∈ sw))).length : ℚ) /
          ((ModifyingSentences.get_words_from_sentence sentence
            strip_characters).length : ℚ) < smax)) ∧
    ((((ModifyingSentences.get_words_from_sentence sentence
          strip_characters).filter (fun word => decide (word ∈ sw))).length : ℚ) /
        ((ModifyingSentences.get_words_from_sentence sentence
          strip_characters).length : ℚ) = smin →
      Filtering.check_stopwords sentence strip_characters (some sw) smin smax = false) ∧
    ((((ModifyingSentences.get_words_from_sentence sentence
          strip_characters).filter (fun word => decide (word ∈ sw))).length : ℚ) /
        ((ModifyingSentences.get_words_from_sentence sentence
          strip_characters).length : ℚ) = smax →
      Filtering.check_stopwords sentence strip_characters (some sw) smin smax = false) := by
  have hne : sw.isEmpty = false := by
    cases sw with
    | nil => exact absurd rfl hsw
    | cons a l => rfl
  refine ⟨?_, ?_, ?_⟩
  · simp [Filtering.check_stopwords, hne]
  · intro he
    simp only [Filtering.check_stopwords, hne, Bool.false_eq_true, if_false]
    rw [he]
    simp
  · intro he
    simp only [Filtering.check_stopwords, hne, Bool.false_eq_true, if_false]
    rw [he]
    simp

/-- Closed instance of the C5 theorem at a one word sentence with a one word
lexicon. -/
theorem claim_C5_witness :
    ([['a']] : List (List Char)) ≠ [] ∧
    ((Filtering.check_stopwords ['a'] [] (some [['a']]) 0 2 = true ↔
        ((0 : ℚ) < (((ModifyingSentences.get_words_from_sentence ['a']
              []).filter (fun word => decide (word ∈ [['a']]))).length : ℚ) /
            ((ModifyingSentences.get_words_from_sentence ['a'] []).length : ℚ) ∧
          (((ModifyingSentences.get_words_from_sentence ['a']
              []).filter (fun word => decide (word ∈ [['a']]))).length : ℚ) /
            ((ModifyingSentences.get_words_from_sentence ['a'] []).length : ℚ) < 2)) ∧
      ((((ModifyingSentences.get_words_from_sentence ['a']
            []).filter (fun word => decide (word ∈ [['a']]))).length : ℚ) /
          ((ModifyingSentences.get_words_from_sentence ['a'] []).length : ℚ) = 0 →
        Filtering.check_stopwords ['a'] [] (some [['a']]) 0 2 = false) ∧
      ((((ModifyingSentences.get_words_from_sentence ['a']
            []).filter (fun word => decide (word ∈ [['a']]))).length : ℚ) /
          ((ModifyingSentences.get_words_from_sentence ['a'] []).length : ℚ) = 2 →
        Filtering.check_stopwords ['a'] [] (some [['a']]) 0 2 = false)) :=
  ⟨by decide, claim_C5_stopwords_strict ['a'] [] [['a']] 0 2 (by decide)⟩

/-- C6 as stated is false on the code: with an empty set lexicon the Python
truthiness test if stopwords is false, so both checks return true without
computing any ratio.  At this concrete input the would-be ratio is zero and
the claimed cutoff comparison fails, yet both checks return true. -/
theorem claim_C6_counterexample :
    Filtering.check_stopwords ['a'] [] (some []) 0 1 = true ∧
    Filtering.check_badwords ['a'] [] (some []) 0 = true ∧
    (((ModifyingSentences.get_words_from_sentence ['a'] []).filter
        (fun word => decide (word ∈ ([] : List (List Char))))).length : ℚ) /
      ((ModifyingSentences.get_words_from_sentence ['a'] []).length : ℚ) = 0 ∧
    ¬ ((0 : ℚ) > 0 ∧ (0 : ℚ) < 1) ∧ ¬ ((0 : ℚ) < 0) := by
  refine ⟨rfl, rfl, ?_, by norm_num, by norm_num⟩
  have hwords : ModifyingSentences.get_words_from_sentence ['a'] [] = [['a']] := by
    decide
  rw [hwords]
  norm_num

/-- C6 amended: the stopword and badword checks are skipped and auto-pass
when the lexicon is absent or configured as an empty set; with a nonempty
lexicon they compute the ratio of lexicon tokens over the token count and
apply the cutoff comparison. -/
theorem claim_C6_amended_empty_lexicon_skips (sentence strip_characters : List Char)
    (lex : List (List Char)) (smin smax cutoff : ℚ) (hlex : lex ≠ []) :
    Filtering.check_stopwords sentence strip_characters none smin smax = true ∧
    Filtering.check_badwords sentence strip_characters none cutoff = true ∧
    Filtering.check_stopwords sentence strip_characters (some []) smin smax = true ∧
    Filtering.check_badwords sentence strip_characters (some []) cutoff = true ∧
    Filtering.check_stopwords sentence strip_characters (some lex) smin smax =
      (decide ((((ModifyingSentences.get_words_from_sentence sentence
          strip_characters).filter (fun word => decide (word ∈ lex))).length : ℚ) /
          ((ModifyingSentences.get_words_from_sentence sentence
            strip_characters).length : ℚ) > smin) &&
        decide ((((ModifyingSentences.get_words_from_sentence sentence
          strip_characters).filter (fun word => decide (word ∈ lex))).length : ℚ) /
          ((ModifyingSentences.get_words_from_sentence sentence
            strip_characters).length : ℚ) < smax)) ∧
    Filtering.check_badwords sentence strip_characters (some lex) cutoff =
      decide ((((ModifyingSentences.get_words_from_sentence sentence
          strip_characters).filter (fun word => decide (word ∈ lex))).length : ℚ) /
          ((ModifyingSentences.get_words_from_sentence sentence
            strip_characters).length : ℚ) < cutoff) := by
  have hne : lex.isEmpty = false := by
    cases lex with
    | nil => exact absurd rfl hlex
    | cons a l => rfl
  refine ⟨rfl, rfl, rfl, rfl, ?_, ?_⟩
  · simp [Filtering.check_stopwords, hne]
  · simp [Filtering.check_badwords, hne]

/-- Closed instance of the amended C6 theorem at a concrete nonempty
lexicon. -/
theorem claim_C6_amended_witness :
    ([['a']] : List (List Char)) ≠ [] ∧
    (Filtering.check_stopwords ['a'] [] none 0 2 = true ∧
      Filtering.check_badwords ['a'] [] none 1 = true ∧
      Filtering.check_stopwords ['a'] [] (some []) 0 2 = true ∧
      Filtering.check_badwords ['a'] [] (some []) 1 = true ∧
      Filtering.check_stopwords ['a'] [] (some [['a']]) 0 2 =
        (decide ((((ModifyingSentences.get_words_from_sentence ['a']
            []).filter (fun word => decide (word ∈ [['a']]))).length : ℚ) /
            ((ModifyingSentences.get_words_from_sentence ['a'] []).length : ℚ) > 0) &&
          decide ((((ModifyingSentences.get_words_from_sentence ['a']
            []).filter (fun word => decide (word ∈ [['a']]))).length : ℚ) /
            ((ModifyingSentences.get_words_from_sentence ['a'] []).length : ℚ) < 2)) ∧
      Filtering.check_badwords ['a'] [] (some [['a']]) 1 =
        decide ((((ModifyingSentences.get_words_from_sentence ['a']
            []).filter (fun word => decide (word ∈ [['a']]))).length : ℚ) /
            ((ModifyingSentences.get_words_from_sentence ['a'] []).length : ℚ) < 1)) :=
  ⟨by decide, claim_C6_amended_empty_lexicon_skips ['a'] [] [['a']] 0 2 1 (by decide)⟩
